import Mathlib

/-!
Shallow embedding of `src/trader_2025.py`: the indicator pipeline and the
advice logic of `generate_analytics` and `calculate_rsi`, the DataFrame
column effects of those functions, the position simulator described by the
design document (absent from the source), and the name-resolution behaviour
of `send_chart_with_buttons`.

Numeric model: pandas float series are modelled exactly over `ℚ`, extended
with `FVal.nan` (IEEE NaN, which pandas uses both for missing rolling-window
values and for 0/0) and signed infinities (which arise from division by
zero).  Rounding is ignored: every arithmetic operation the modelled code
performs is exact on the rational inputs considered.
-/

attribute [local semireducible] Rat.add Rat.mul Rat.sub Rat.inv Rat.ofScientific

namespace Trader

/-- IEEE-style extended value: NaN, plus or minus infinity, or a finite
rational.  `nan` doubles as a pandas missing (NaN) series entry. -/
inductive FVal where
  | nan : FVal
  | pinf : FVal
  | ninf : FVal
  | val : ℚ → FVal
deriving DecidableEq

/-- IEEE negation. -/
def fneg : FVal → FVal
  | .nan => .nan
  | .pinf => .ninf
  | .ninf => .pinf
  | .val q => .val (-q)

/-- IEEE addition (exact on finite values). -/
def fadd : FVal → FVal → FVal
  | .nan, _ => .nan
  | _, .nan => .nan
  | .pinf, .ninf => .nan
  | .ninf, .pinf => .nan
  | .pinf, _ => .pinf
  | _, .pinf => .pinf
  | .ninf, _ => .ninf
  | _, .ninf => .ninf
  | .val a, .val b => .val (a + b)

/-- IEEE subtraction. -/
def fsub (a b : FVal) : FVal := fadd a (fneg b)

/-- IEEE division (exact on finite values; zeroes are unsigned, which is
faithful for every quotient the modelled program reaches). -/
def fdiv : FVal → FVal → FVal
  | .nan, _ => .nan
  | _, .nan => .nan
  | .pinf, .pinf => .nan
  | .pinf, .ninf => .nan
  | .ninf, .pinf => .nan
  | .ninf, .ninf => .nan
  | .pinf, .val b => if b < 0 then .ninf else .pinf
  | .ninf, .val b => if b < 0 then .pinf else .ninf
  | .val _, .pinf => .val 0
  | .val _, .ninf => .val 0
  | .val a, .val b =>
      if b = 0 then (if a = 0 then .nan else if 0 < a then .pinf else .ninf)
      else .val (a / b)

/-- IEEE strict less-than as a Bool: any comparison with NaN is `false`.
This is exactly how pandas evaluates `series < threshold`. -/
def fltB : FVal → FVal → Bool
  | .val a, .val b => decide (a < b)
  | .val _, .pinf => true
  | .ninf, .val _ => true
  | .ninf, .pinf => true
  | _, _ => false

/-- Lift a pandas Option-style cell (none = NaN) into `FVal`. -/
def toF : Option ℚ → FVal
  | some q => .val q
  | none => .nan

/-- The window `[f (i-w+1), …, f (i-1), f i]` in ascending index order;
`none` as soon as any cell is missing, mirroring how a pandas rolling
window of total values turns NaN when it covers a NaN cell. -/
def takeWindow (f : ℕ → Option ℚ) (i : ℕ) : ℕ → Option (List ℚ)
  | 0 => some []
  | k + 1 =>
      match f (i - k), takeWindow f i k with
      | some x, some l => some (x :: l)
      | _, _ => none

/-- `rolling(window=w)` source window at index `i`: undefined while fewer
than `w` observations exist (pandas defaults `min_periods` to the window). -/
def windowVals (f : ℕ → Option ℚ) (w i : ℕ) : Option (List ℚ) :=
  if i + 1 < w then none else takeWindow f i w

/-- `series.rolling(window=w).mean()` at index `i`. -/
def rollingMeanOpt (f : ℕ → Option ℚ) (w i : ℕ) : Option ℚ :=
  (windowVals f w i).map (fun l => l.sum / (w : ℚ))

/-- Rolling squared deviation statistic of the close list with divisor
`w - ddof`; `ddof = 1` is `series.rolling(window=w).std() ** 2`, the
square of what pandas computes (pandas defaults to `ddof = 1`). -/
def rollingVarQ (xs : List ℚ) (w ddof i : ℕ) : Option ℚ :=
  (windowVals (fun j => xs.get? j) w i).map
    (fun l => (l.map (fun x => (x - l.sum / (w : ℚ)) ^ 2)).sum / ((w : ℚ) - (ddof : ℚ)))

/-- `series.diff()` at index `i`: NaN at index 0 and out of range. -/
def diffAt (xs : List ℚ) (i : ℕ) : Option ℚ :=
  if i = 0 then none
  else
    match xs.get? i, xs.get? (i - 1) with
    | some a, some b => some (a - b)
    | _, _ => none

/-- `delta.clip(lower=0)` from `calculate_rsi`: the per-bar gain. -/
def gainAt (xs : List ℚ) (i : ℕ) : Option ℚ :=
  (diffAt xs i).map (fun d => max d 0)

/-- `-delta.clip(upper=0)` from `calculate_rsi`: the per-bar loss. -/
def lossAt (xs : List ℚ) (i : ℕ) : Option ℚ :=
  (diffAt xs i).map (fun d => max (-d) 0)

/-- `gain.rolling(window=period).mean()` from `calculate_rsi`. -/
def avg_gain (xs : List ℚ) (period i : ℕ) : Option ℚ :=
  rollingMeanOpt (gainAt xs) period i

/-- `loss.rolling(window=period).mean()` from `calculate_rsi`. -/
def avg_loss (xs : List ℚ) (period i : ℕ) : Option ℚ :=
  rollingMeanOpt (lossAt xs) period i

/-- `calculate_rsi(series, period)` at index `i`, lines 164-172 of the
source: `rs = avg_gain / avg_loss; rsi = 100 - (100 / (1 + rs))` under
IEEE semantics (so `avg_loss = 0` with positive gain gives `rs = +inf`
and `rsi = 100`, while `0/0` gives NaN). -/
def calculate_rsi (xs : List ℚ) (period i : ℕ) : FVal :=
  let rs := fdiv (toF (avg_gain xs period i)) (toF (avg_loss xs period i))
  fsub (.val 100) (fdiv (.val 100) (fadd (.val 1) rs))

/-- `series.ewm(span=span).mean()` at index `i` with the pandas default
`adjust=True`: the `(1-alpha)^k`-weighted average of the observations up
to `i`, where `alpha = 2/(span+1)`; defined for every in-range index. -/
def ewmMean (xs : List ℚ) (span : ℕ) (i : ℕ) : Option ℚ :=
  if i < xs.length then
    let β : ℚ := 1 - 2 / ((span : ℚ) + 1)
    some ((((List.range (i + 1)).map (fun k => β ^ k * xs.getD (i - k) 0)).sum) /
      (((List.range (i + 1)).map (fun k => β ^ k)).sum))
  else none

/-- `MACD = close.ewm(span=12).mean() - close.ewm(span=26).mean()`,
line 113 of the source. -/
def macd (xs : List ℚ) (i : ℕ) : Option ℚ :=
  match ewmMean xs 12 i, ewmMean xs 26 i with
  | some a, some b => some (a - b)
  | _, _ => none

/-- `BB_MID = close.rolling(window=20).mean()`, line 116 of the source. -/
def BB_MID (xs : List ℚ) (i : ℕ) : Option ℚ :=
  rollingMeanOpt (fun j => xs.get? j) 20 i

/-- Square of `BB_STD = close.rolling(window=20).std()` (line 117):
pandas `rolling.std()` uses `ddof = 1`, the sample deviation. -/
def bbVar (xs : List ℚ) (i : ℕ) : Option ℚ :=
  rollingVarQ xs 20 1 i

/-- `BB_STD` itself (line 117), over `ℝ` since the square root of a
rational is in general irrational. -/
noncomputable def BB_STD (xs : List ℚ) (i : ℕ) : Option ℝ :=
  (bbVar xs i).map (fun v => Real.sqrt (v : ℝ))

/-- `BB_UPPER = BB_MID + BB_STD * 2`, line 118 of the source. -/
noncomputable def BB_UPPER (xs : List ℚ) (i : ℕ) : Option ℝ :=
  match BB_MID xs i, BB_STD xs i with
  | some m, some s => some ((m : ℝ) + s * 2)
  | _, _ => none

/-- `BB_LOWER = BB_MID - BB_STD * 2`, line 119 of the source. -/
noncomputable def BB_LOWER (xs : List ℚ) (i : ℕ) : Option ℝ :=
  match BB_MID xs i, BB_STD xs i with
  | some m, some s => some ((m : ℝ) - s * 2)
  | _, _ => none

/-- `latest_rsi < 30` (line 140), under NaN-is-false comparison. -/
def rsiBuyB (c : List ℚ) (i : ℕ) : Bool :=
  fltB (calculate_rsi c 14 i) (.val 30)

/-- `latest_rsi > 70` (line 142). -/
def rsiSellB (c : List ℚ) (i : ℕ) : Bool :=
  fltB (.val 70) (calculate_rsi c 14 i)

/-- `latest_macd > 0` (line 140). -/
def macdPosB (c : List ℚ) (i : ℕ) : Bool :=
  match macd c i with
  | some m => decide (0 < m)
  | none => false

/-- `latest_macd < 0` (line 142). -/
def macdNegB (c : List ℚ) (i : ℕ) : Bool :=
  match macd c i with
  | some m => decide (m < 0)
  | none => false

/-- `latest_ema20 > latest_ema50` (line 140). -/
def emaUpB (c : List ℚ) (i : ℕ) : Bool :=
  match ewmMean c 20 i, ewmMean c 50 i with
  | some a, some b => decide (b < a)
  | _, _ => false

/-- `latest_ema20 < latest_ema50` (line 142). -/
def emaDownB (c : List ℚ) (i : ℕ) : Bool :=
  match ewmMean c 20 i, ewmMean c 50 i with
  | some a, some b => decide (a < b)
  | _, _ => false

/-- `latest_price < latest_bb_lower` (line 140).  Since
`BB_LOWER = mid - 2 * sqrt(var)`, the float comparison
`p < mid - 2 * sqrt(var)` holds exactly when `mid - p` is positive and
`(mid - p)^2 > 4 * var`; NaN band values compare `false`. -/
def belowLowerB (c : List ℚ) (i : ℕ) : Bool :=
  match c.get? i, BB_MID c i, bbVar c i with
  | some p, some m, some v => decide (0 < m - p ∧ 4 * v < (m - p) ^ 2)
  | _, _, _ => false

/-- `latest_price > latest_bb_upper` (line 142), encoded like
`belowLowerB`. -/
def aboveUpperB (c : List ℚ) (i : ℕ) : Bool :=
  match c.get? i, BB_MID c i, bbVar c i with
  | some p, some m, some v => decide (0 < p - m ∧ 4 * v < (p - m) ^ 2)
  | _, _, _ => false

/-- `Volume_Surge = volume > volume.rolling(window=20).mean() * 1.5`
(line 126) evaluated at index `i`; NaN comparisons are `false`. -/
def volumeSurgeB (vols : List ℚ) (i : ℕ) : Bool :=
  match vols.get? i, rollingMeanOpt (fun j => vols.get? j) 20 i with
  | some x, some mn => decide (mn * (3 / 2) < x)
  | _, _ => false

/-- The advice string literals of lines 138-145 of the source. -/
def adviceHold : String := "HOLD"

/-- Advice string of line 141. -/
def adviceStrongBuy : String := "🔥 STRONG BUY - Oversold with trend reversal"

/-- Advice string of line 143. -/
def adviceStrongSell : String := "🚨 STRONG SELL - Overbought with downtrend starting"

/-- Advice string of line 145. -/
def adviceCaution : String := "⚠️ CAUTION - Unusual volume detected, possible trend shift"

/-- The advice chain of lines 138-145 of `generate_analytics`, evaluated
at index `i` of the close and volume columns (the source evaluates it at
the final index via `iloc[-1]`). -/
def adviceAt (c vols : List ℚ) (i : ℕ) : String :=
  if rsiBuyB c i && macdPosB c i && emaUpB c i && belowLowerB c i then adviceStrongBuy
  else if rsiSellB c i && macdNegB c i && emaDownB c i && aboveUpperB c i then adviceStrongSell
  else if volumeSurgeB vols i then adviceCaution
  else adviceHold

/-- The advice value `generate_analytics` returns: the chain of lines
138-145 at the last row (`iloc[-1]`). -/
def generate_analytics (c vols : List ℚ) : String :=
  adviceAt c vols (c.length - 1)

/-- Rolling sample variance written independently from the amended
specification wording (squared deviations from the window mean, divisor
`w - 1`), as a `Finset.range` sum, to be compared with what the code
computes. -/
def specSampleVar (xs : List ℚ) (w i : ℕ) : Option ℚ :=
  if w ≤ i + 1 ∧ i < xs.length then
    some ((∑ k in Finset.range w,
        (xs.getD (i - k) 0 - (∑ k in Finset.range w, xs.getD (i - k) 0) / (w : ℚ)) ^ 2) /
      ((w : ℚ) - 1))
  else none

/-- Rolling population standard deviation (divisor `n`), following the
specification's words for the Bollinger band deviation, to be compared
with what the code computes. -/
noncomputable def specPopStd (xs : List ℚ) (i : ℕ) : Option ℝ :=
  (rollingVarQ xs 20 0 i).map (fun v => Real.sqrt (v : ℝ))

/-! DataFrame column model: a frame is an ordered association list from
column names to column payloads; `df[name] = value` replaces the column
in place when it exists and appends it otherwise, as pandas does. -/

/-- Column lookup, `df[name]`. -/
def getCol {α : Type} (df : List (String × α)) (name : String) : Option α :=
  (df.find? (fun p => p.1 == name)).map (fun p => p.2)

/-- Column assignment, `df[name] = v`. -/
def setCol {α : Type} (df : List (String × α)) (name : String) (v : α) :
    List (String × α) :=
  if df.any (fun p => p.1 == name) then
    df.map (fun p => if p.1 == name then (name, v) else p)
  else df ++ [(name, v)]

/-- The eleven columns `generate_analytics` assigns, in source order
(lines 106-126). -/
def indicatorCols : List String :=
  ["EMA20", "EMA50", "RSI", "MACD", "BB_MID", "BB_STD", "BB_UPPER", "BB_LOWER",
   "Support", "Resistance", "Volume_Surge"]

/-- The store effect of `generate_analytics` on the caller's DataFrame:
lines 106-126 assign the eleven derived columns in place (the assigned
payloads are parameters here; the claims this serves concern which
columns change, not the payload values). -/
def generate_analytics_frame {α : Type} (df : List (String × α))
    (vEma20 vEma50 vRsi vMacd vMid vStd vUp vLo vSup vRes vSurge : α) :
    List (String × α) :=
  setCol (setCol (setCol (setCol (setCol (setCol (setCol (setCol (setCol (setCol
    (setCol df "EMA20" vEma20) "EMA50" vEma50) "RSI" vRsi) "MACD" vMacd)
    "BB_MID" vMid) "BB_STD" vStd) "BB_UPPER" vUp) "BB_LOWER" vLo)
    "Support" vSup) "Resistance" vRes) "Volume_Surge" vSurge

/-! Position simulator.  Modelled from the spec: the source repository
contains no `PositionSimulator`; the definitions below follow the design
document's state machine (states Flat and Long, all-in entry on Buy from
Flat, all-out exit on Sell from Long, a `ClosedTrade` appended on exit,
every other combination a no-op). -/

/-- Modelled from the spec: per-bar trading signal. -/
inductive Signal where
  | buy : Signal
  | sell : Signal
  | hold : Signal
deriving DecidableEq

/-- Modelled from the spec: the single-position state. -/
inductive PositionState where
  | flat : PositionState
  | long : PositionState
deriving DecidableEq

/-- Modelled from the spec: a closed round-trip trade. -/
structure ClosedTrade where
  entryIndex : ℕ
  entryPrice : ℚ
  exitIndex : ℕ
  exitPrice : ℚ
deriving DecidableEq

/-- Modelled from the spec: the simulator state walked across the bars. -/
structure SimulationState where
  cashBalance : ℚ
  unitsHeld : ℚ
  position : PositionState
  entryIndex : ℕ
  entryPrice : ℚ
  trades : List ClosedTrade
deriving DecidableEq

/-- Modelled from the spec: one transition of the PositionSimulator at
bar `i` (Flat + Buy enters all-in, Long + Sell exits all-out and records
the trade, anything else leaves the state unchanged). -/
def stepSim (close : ℕ → ℚ) (sig : ℕ → Signal) (s : SimulationState) (i : ℕ) :
    SimulationState :=
  match s.position, sig i with
  | .flat, .buy =>
      { cashBalance := 0, unitsHeld := s.cashBalance / close i, position := .long,
        entryIndex := i, entryPrice := close i, trades := s.trades }
  | .long, .sell =>
      { cashBalance := s.unitsHeld * close i, unitsHeld := 0, position := .flat,
        entryIndex := s.entryIndex, entryPrice := s.entryPrice,
        trades := s.trades ++ [⟨s.entryIndex, s.entryPrice, i, close i⟩] }
  | _, _ => s

/-- Modelled from the spec: run the PositionSimulator over bars
`0, …, n-1` from an initial Flat state holding `balance`. -/
def runSim (balance : ℚ) (close : ℕ → ℚ) (sig : ℕ → Signal) : ℕ → SimulationState
  | 0 => ⟨balance, 0, .flat, 0, 0, []⟩
  | n + 1 => stepSim close sig (runSim balance close sig n) n

/-- Modelled from the spec: final equity of a run over `n` bars — the
cash balance when Flat, the mark-to-market value at the last close when
still Long. -/
def finalEquity (close : ℕ → ℚ) (n : ℕ) (s : SimulationState) : ℚ :=
  match s.position with
  | .flat => s.cashBalance
  | .long => s.unitsHeld * close (n - 1)

/-! Name-resolution model for `send_chart_with_buttons` (lines 175-200):
the `message_text` f-string of lines 190-196 reads the names `advice` and
`df`; Python resolves a name against the function's local scope and then
the module's global scope, raising `NameError` when both miss. -/

/-- The names bound at module level of `trader_2025.py` (imports,
module-level assignments, and function definitions). -/
def moduleGlobals : List String :=
  ["os", "logging", "asyncio", "datetime", "ccxt", "pd", "plt", "BytesIO",
   "Update", "InlineKeyboardButton", "InlineKeyboardMarkup", "Updater",
   "CommandHandler", "CallbackQueryHandler", "CallbackContext", "load_dotenv",
   "TELEGRAM_BOT_TOKEN", "BINANCE_API_KEY", "BINANCE_API_SECRET", "CHAT_ID",
   "logger", "exchange", "selected_pair", "start", "select_pair",
   "handle_pair_callback", "scheduled_analytics", "fetch_ohlcv",
   "generate_analytics", "calculate_rsi", "send_chart_with_buttons",
   "trade_callback", "main"]

/-- The local names of `send_chart_with_buttons` in scope when the
`message_text` f-string is evaluated: the four parameters and the locals
assigned on lines 177-187. -/
def sendChartLocals : List String :=
  ["bot", "user_id", "advice", "fig", "buf", "keyboard", "markup"]

/-- The free names the `message_text` f-string of lines 190-196 reads. -/
def messageTextFreeNames : List String := ["advice", "df"]

/-- Python name resolution for that program point. -/
def nameBound (n : String) : Bool :=
  sendChartLocals.contains n || moduleGlobals.contains n

/-- Observable outcome of one `send_chart_with_buttons` call. -/
structure SendOutcome where
  photoSent : Bool
  errorLogged : Bool
  returnsNormally : Bool
deriving DecidableEq

/-- The body of `send_chart_with_buttons`: inside the `try` block the
buffer, figure save, keyboard and markup steps succeed, then the
`message_text` f-string is evaluated (raising `NameError` when one of its
free names is unbound) strictly before `bot.send_photo`; the `except`
clause catches any exception and logs it, after which the function
returns `None` normally. -/
def send_chart_outcome : SendOutcome :=
  if messageTextFreeNames.all nameBound then
    { photoSent := true, errorLogged := false, returnsNormally := true }
  else
    { photoSent := false, errorLogged := true, returnsNormally := true }

/-! Concrete inputs used by counterexamples and witnesses. -/

/-- Twenty closes alternating 100, 101: RSI is defined and equals 50 at
index 19, and both threshold branches are off. -/
def cexCloses : List ℚ :=
  [100, 101, 100, 101, 100, 101, 100, 101, 100, 101,
   100, 101, 100, 101, 100, 101, 100, 101, 100, 101]

/-- Twenty volumes with a heavy spike on the final bar: a volume surge at
index 19. -/
def cexVolumes : List ℚ := List.replicate 19 1 ++ [100]

/-- Twenty constant closes: every delta is zero, so RSI is 0/0 = NaN at
index 19. -/
def constCloses : List ℚ := List.replicate 20 (100 : ℚ)

/-- Fifteen strictly increasing closes: fourteen unit gains and no loss. -/
def upCloses : List ℚ := (List.range 15).map (fun n => (n : ℚ))

/-- Fifteen constant closes: zero average gain and zero average loss at
index 14. -/
def flatCloses : List ℚ := List.replicate 15 (100 : ℚ)

/-- Twenty closes, nineteen zeroes then a one: sample variance 1/20 and
population variance 19/400 over the window ending at index 19. -/
def bbCloses : List ℚ := List.replicate 19 (0 : ℚ) ++ [1]

/-- Close prices for the simulator witness run: 100 on bar 0, 120 after. -/
def wClose : ℕ → ℚ := fun i => if i = 0 then 100 else 120

/-- Signals for the simulator witness run: Buy at 0, Sell at 1, Hold after. -/
def wSig : ℕ → Signal := fun i =>
  if i = 0 then .buy else if i = 1 then .sell else .hold

/-- The Buy branch condition of line 140 at the level of indicator
values: RSI defined and below 30, MACD defined and positive, EMA20 above
EMA50, and the close strictly below the lower Bollinger band (stated via
the squared half-width, see `belowLowerB`). -/
def buyCond (c : List ℚ) (i : ℕ) : Prop :=
  (∃ r, calculate_rsi c 14 i = .val r ∧ r < 30) ∧
  (∃ m, macd c i = some m ∧ 0 < m) ∧
  (∃ a b, ewmMean c 20 i = some a ∧ ewmMean c 50 i = some b ∧ b < a) ∧
  (∃ p m v, c.get? i = some p ∧ BB_MID c i = some m ∧ bbVar c i = some v ∧
    0 < m - p ∧ 4 * v < (m - p) ^ 2)

/-- The Sell branch condition of line 142 at the level of indicator
values. -/
def sellCond (c : List ℚ) (i : ℕ) : Prop :=
  (∃ r, calculate_rsi c 14 i = .val r ∧ 70 < r) ∧
  (∃ m, macd c i = some m ∧ m < 0) ∧
  (∃ a b, ewmMean c 20 i = some a ∧ ewmMean c 50 i = some b ∧ a < b) ∧
  (∃ p m v, c.get? i = some p ∧ BB_MID c i = some m ∧ bbVar c i = some v ∧
    0 < p - m ∧ 4 * v < (p - m) ^ 2)

/-- The volume-surge condition of line 144 at the level of values. -/
def cautionCond (vols : List ℚ) (i : ℕ) : Prop :=
  ∃ x mn, vols.get? i = some x ∧
    rollingMeanOpt (fun j => vols.get? j) 20 i = some mn ∧ mn * (3 / 2) < x

/-! Window helper lemmas. -/

theorem takeWindow_isSome (f : ℕ → Option ℚ) (i : ℕ) :
    ∀ w, (∀ k, k < w → (f (i - k)).isSome) → ∃ l, takeWindow f i w = some l := by
  intro w
  induction w with
  | zero => exact fun _ => ⟨[], rfl⟩
  | succ k ih =>
    intro h
    obtain ⟨l, hl⟩ := ih (fun j hj => h j (by omega))
    obtain ⟨x, hx⟩ := Option.isSome_iff_exists.mp (h k (by omega))
    exact ⟨x :: l, by rw [takeWindow, hx, hl]⟩

theorem takeWindow_none_of_head (f : ℕ → Option ℚ) (i : ℕ) (h : f i = none) :
    ∀ w, 0 < w → takeWindow f i w = none := by
  intro w
  induction w with
  | zero => omega
  | succ k ih =>
    intro _
    rcases Nat.eq_zero_or_pos k with hk | hk
    · subst hk
      rw [takeWindow]
      simp [h]
    · rw [takeWindow, ih hk]
      cases f (i - k) <;> rfl

theorem takeWindow_mem (f : ℕ → Option ℚ) (i : ℕ) :
    ∀ w l, takeWindow f i w = some l → ∀ x ∈ l, ∃ k, k < w ∧ f (i - k) = some x := by
  intro w
  induction w with
  | zero =>
    intro l hl x hx
    rw [takeWindow] at hl
    cases hl
    simp at hx
  | succ k ih =>
    intro l hl x hx
    rw [takeWindow] at hl
    rcases hy : f (i - k) with - | y <;> rw [hy] at hl
    · exact absurd hl (by simp)
    rcases ht : takeWindow f i k with - | t <;> rw [ht] at hl
    · exact absurd hl (by simp)
    cases hl
    rcases List.mem_cons.mp hx with rfl | hxt
    · exact ⟨k, by omega, hy⟩
    · obtain ⟨j, hj, hfj⟩ := ih t ht x hxt
      exact ⟨j, by omega, hfj⟩

theorem takeWindow_map_sum (f : ℕ → Option ℚ) (i : ℕ) (g : ℚ → ℚ) :
    ∀ w l, takeWindow f i w = some l →
      (l.map g).sum = ∑ k in Finset.range w, g ((f (i - k)).getD 0) := by
  intro w
  induction w with
  | zero =>
    intro l hl
    rw [takeWindow] at hl
    cases hl
    simp
  | succ k ih =>
    intro l hl
    rw [takeWindow] at hl
    rcases hy : f (i - k) with - | y <;> rw [hy] at hl
    · exact absurd hl (by simp)
    rcases ht : takeWindow f i k with - | t <;> rw [ht] at hl
    · exact absurd hl (by simp)
    cases hl
    rw [Finset.sum_range_succ, ← ih t ht]
    simp [hy, add_comm]

/-! RSI helper lemmas. -/

theorem avg_gain_nonneg (xs : List ℚ) (p i : ℕ) (g : ℚ)
    (h : avg_gain xs p i = some g) : 0 ≤ g := by
  rw [avg_gain, rollingMeanOpt, windowVals] at h
  split at h
  · exact absurd h (by simp)
  rcases hl : takeWindow (gainAt xs) i p with - | l <;> rw [hl] at h
  · exact absurd h (by simp)
  simp only [Option.map_some', Option.some.injEq] at h
  subst h
  have hnn : ∀ x ∈ l, 0 ≤ x := by
    intro x hx
    obtain ⟨k, -, hk⟩ := takeWindow_mem (gainAt xs) i p l hl x hx
    rw [gainAt] at hk
    rcases hd : diffAt xs (i - k) with - | d <;> rw [hd] at hk
    · exact absurd hk (by simp)
    simp only [Option.map_some', Option.some.injEq] at hk
    rw [← hk]
    exact le_max_right d 0
  exact div_nonneg (List.sum_nonneg hnn) (by positivity)

theorem avg_loss_nonneg (xs : List ℚ) (p i : ℕ) (l : ℚ)
    (h : avg_loss xs p i = some l) : 0 ≤ l := by
  rw [avg_loss, rollingMeanOpt, windowVals] at h
  split at h
  · exact absurd h (by simp)
  rcases hl : takeWindow (lossAt xs) i p with - | w <;> rw [hl] at h
  · exact absurd h (by simp)
  simp only [Option.map_some', Option.some.injEq] at h
  subst h
  have hnn : ∀ x ∈ w, 0 ≤ x := by
    intro x hx
    obtain ⟨k, -, hk⟩ := takeWindow_mem (lossAt xs) i p w hl x hx
    rw [lossAt] at hk
    rcases hd : diffAt xs (i - k) with - | d <;> rw [hd] at hk
    · exact absurd hk (by simp)
    simp only [Option.map_some', Option.some.injEq] at hk
    rw [← hk]
    exact le_max_right (-d) 0
  exact div_nonneg (List.sum_nonneg hnn) (by positivity)

theorem calculate_rsi_shape (xs : List ℚ) (p i : ℕ) :
    calculate_rsi xs p i = .nan ∨
      ∃ r, calculate_rsi xs p i = .val r ∧ 0 ≤ r ∧ r ≤ 100 := by
  rw [calculate_rsi]
  rcases hg : avg_gain xs p i with - | g
  · left
    simp [toF, fdiv, fadd, fsub, fneg]
  rcases hl : avg_loss xs p i with - | l
  · left
    cases toF (avg_loss xs p i) <;> simp [toF, fdiv, fadd, fsub, fneg]
  have hg0 : 0 ≤ g := avg_gain_nonneg xs p i g hg
  have hl0 : 0 ≤ l := avg_loss_nonneg xs p i l hl
  simp only [toF]
  rcases eq_or_lt_of_le hl0 with hlz | hlp
  · rcases eq_or_lt_of_le hg0 with hgz | hgp
    · left
      rw [fdiv]
      simp only [← hlz, ← hgz, if_pos rfl]
      rfl
    · right
      refine ⟨100, ?_, by norm_num, le_refl 100⟩
      rw [fdiv]
      simp only [← hlz, if_pos rfl, if_neg (ne_of_gt hgp), if_pos hgp]
      simp [fadd, fdiv, fsub, fneg]
  · right
    have h1 : (0 : ℚ) < 1 + g / l := by positivity
    refine ⟨100 - 100 / (1 + g / l), ?_, ?_, ?_⟩
    · rw [fdiv, if_neg (ne_of_gt hlp), fadd, fdiv, if_neg (ne_of_gt h1), fsub, fneg, fadd]
      congr 1
      ring
    · have : 100 / (1 + g / l) ≤ 100 := by
        apply div_le_self (by norm_num)
        have : 0 ≤ g / l := by positivity
        linarith
      linarith
    · have : 0 < 100 / (1 + g / l) := by positivity
      linarith

/-- C8: whenever `calculate_rsi` (with the source's window 14) produces a
defined value at an index, that value lies in the closed interval
`[0, 100]`. -/
theorem c8_rsi_in_unit_range (xs : List ℚ) (i : ℕ) (r : ℚ)
    (h : calculate_rsi xs 14 i = .val r) : 0 ≤ r ∧ r ≤ 100 := by
  rcases calculate_rsi_shape xs 14 i with hs | ⟨r', hs, h0, h1⟩
  · rw [hs] at h
    exact absurd h (by simp)
  · rw [hs] at h
    cases h
    exact ⟨h0, h1⟩

/-- C8 witness: the bound instantiated on fifteen strictly increasing
closes, where RSI at index 14 is 100. -/
theorem c8_rsi_in_unit_range_witness : (0 : ℚ) ≤ 100 ∧ (100 : ℚ) ≤ 100 :=
  c8_rsi_in_unit_range upCloses 14 100 (by decide)

/-- C5 counterexample: on fifteen constant closes the average gain and
the average loss at index 14 are both defined and equal to 0, and the
code's RSI there is NaN (pandas computes `rs = 0/0 = NaN`), not 100 as
the claim states for the `avgGain = 0` case. -/
theorem c5_counterexample :
    avg_gain flatCloses 14 14 = some 0 ∧ avg_loss flatCloses 14 14 = some 0 ∧
      calculate_rsi flatCloses 14 14 ≠ .val 100 := by
  refine ⟨by decide, by decide, by decide⟩

/-- C5 amended: when the average loss is defined and 0 and the average
gain is defined, RSI is 100 if the average gain is nonzero, and NaN
(undefined) if the average gain is also 0. -/
theorem c5_rsi_zero_loss (xs : List ℚ) (i : ℕ) (g : ℚ)
    (hg : avg_gain xs 14 i = some g) (hl : avg_loss xs 14 i = some 0) :
    calculate_rsi xs 14 i = if g = 0 then .nan else .val 100 := by
  rw [calculate_rsi, hg, hl]
  simp only [toF]
  by_cases hgz : g = 0
  · rw [if_pos hgz, fdiv, if_pos rfl, if_pos hgz]
    rfl
  · rw [if_neg hgz, fdiv, if_pos rfl, if_neg hgz]
    rcases lt_or_gt_of_ne hgz with hneg | hpos
    · rw [if_neg (not_lt_of_gt hneg)]
      rfl
    · rw [if_pos hpos]
      rfl

/-- C5 witness: on fifteen strictly increasing closes the average gain is
1, the average loss is 0, and RSI at index 14 is exactly 100. -/
theorem c5_rsi_zero_loss_witness : calculate_rsi upCloses 14 14 = .val 100 := by
  have h := c5_rsi_zero_loss upCloses 14 1 (by decide) (by decide)
  simpa using h

/-- C10: the name `df` read by the report message of
`send_chart_with_buttons` is bound neither in the function scope nor at
module level, so every call raises `NameError` before `bot.send_photo`,
the surrounding except block logs the error, and the function returns
normally without sending anything. -/
theorem c10_send_chart_unbound_df :
    nameBound "df" = false ∧
      send_chart_outcome =
        { photoSent := false, errorLogged := true, returnsNormally := true } := by
  refine ⟨by decide, by decide⟩

/-- C2 counterexample: on twenty constant closes with a final volume
spike the advice is the CAUTION string, which is none of the claim's
three admissible values (Buy, Sell, Hold). -/
theorem c2_counterexample :
    ¬(generate_analytics constCloses cexVolumes = adviceStrongBuy ∨
      generate_analytics constCloses cexVolumes = adviceStrongSell ∨
      generate_analytics constCloses cexVolumes = adviceHold) := by
  decide

/-- C2 amended: the advice is always one of exactly four values — the
STRONG BUY, STRONG SELL, CAUTION and HOLD strings of lines 138-145. -/
theorem c2_advice_one_of_four (c vols : List ℚ) :
    generate_analytics c vols = adviceStrongBuy ∨
      generate_analytics c vols = adviceStrongSell ∨
      generate_analytics c vols = adviceCaution ∨
      generate_analytics c vols = adviceHold := by
  rw [generate_analytics, adviceAt]
  split
  · exact Or.inl rfl
  split
  · exact Or.inr (Or.inl rfl)
  split
  · exact Or.inr (Or.inr (Or.inl rfl))
  · exact Or.inr (Or.inr (Or.inr rfl))

/-! Frame-effect helper lemmas. -/

theorem find?_map_upd {α : Type} (df : List (String × α)) (n m : String) (v : α)
    (h : m ≠ n) :
    (df.map (fun p => if p.1 == n then (n, v) else p)).find? (fun p => p.1 == m) =
      df.find? (fun p => p.1 == m) := by
  induction df with
  | nil => rfl
  | cons p t ih =>
    rw [List.map_cons]
    by_cases hp : (p.1 == n) = true
    · have hpn : p.1 = n := beq_iff_eq.mp hp
      rw [if_pos hp]
      have e1 : List.find? (fun p => p.1 == m)
          ((n, v) :: t.map (fun p => if p.1 == n then (n, v) else p)) =
          List.find? (fun p => p.1 == m)
            (t.map (fun p => if p.1 == n then (n, v) else p)) :=
        List.find?_cons_of_neg _ (by simpa using Ne.symm h)
      have e2 : List.find? (fun p => p.1 == m) (p :: t) =
          List.find? (fun p => p.1 == m) t :=
        List.find?_cons_of_neg _ (by simpa [hpn] using Ne.symm h)
      rw [e1, e2, ih]
    · rw [if_neg hp]
      by_cases hm : (p.1 == m) = true
      · have e1 : List.find? (fun p => p.1 == m)
            (p :: t.map (fun p => if p.1 == n then (n, v) else p)) = some p :=
          List.find?_cons_of_pos _ hm
        have e2 : List.find? (fun p => p.1 == m) (p :: t) = some p :=
          List.find?_cons_of_pos _ hm
        rw [e1, e2]
      · have e1 : List.find? (fun p => p.1 == m)
            (p :: t.map (fun p => if p.1 == n then (n, v) else p)) =
            List.find? (fun p => p.1 == m)
              (t.map (fun p => if p.1 == n then (n, v) else p)) :=
          List.find?_cons_of_neg _ (by simpa using hm)
        have e2 : List.find? (fun p => p.1 == m) (p :: t) =
            List.find? (fun p => p.1 == m) t :=
          List.find?_cons_of_neg _ (by simpa using hm)
        rw [e1, e2, ih]

theorem getCol_setCol_of_ne {α : Type} (df : List (String × α)) (n m : String)
    (v : α) (h : m ≠ n) : getCol (setCol df n v) m = getCol df m := by
  rw [getCol, setCol, getCol]
  by_cases hany : (df.any (fun p => p.1 == n)) = true
  · rw [if_pos hany, find?_map_upd df n m v h]
  · rw [if_neg hany, List.find?_append]
    have : ([(n, v)].find? (fun p => p.1 == m)) = none := by
      have h1 : (((n, v) : String × α).1 == m) = false :=
        beq_eq_false_iff_ne.mpr (Ne.symm h)
      simp [List.find?, h1]
    rw [this]
    cases df.find? (fun p => p.1 == m) <;> rfl

/-- C7 counterexample: running the column assignments of
`generate_analytics` on a one-column frame does not leave the caller's
frame unchanged — eleven indicator columns are added in place. -/
theorem c7_counterexample :
    generate_analytics_frame (α := ℕ) [("close", 0)] 0 0 0 0 0 0 0 0 0 0 0 ≠
      [("close", 0)] := by
  decide

/-- C7 amended: `generate_analytics` mutates the caller's DataFrame by
assigning the eleven indicator columns in place; every other column — in
particular the original timestamp/open/high/low/close/volume data — keeps
its value, and a run touches nothing outside the frame it is handed. -/
theorem c7_frame_effect {α : Type} (df : List (String × α))
    (v1 v2 v3 v4 v5 v6 v7 v8 v9 v10 v11 : α) (name : String)
    (h : name ∉ indicatorCols) :
    getCol (generate_analytics_frame df v1 v2 v3 v4 v5 v6 v7 v8 v9 v10 v11) name =
      getCol df name := by
  simp only [indicatorCols, List.mem_cons, List.not_mem_nil, or_false, not_or] at h
  obtain ⟨h1, h2, h3, h4, h5, h6, h7, h8, h9, h10, h11⟩ := h
  rw [generate_analytics_frame, getCol_setCol_of_ne _ _ _ _ h11,
    getCol_setCol_of_ne _ _ _ _ h10, getCol_setCol_of_ne _ _ _ _ h9,
    getCol_setCol_of_ne _ _ _ _ h8, getCol_setCol_of_ne _ _ _ _ h7,
    getCol_setCol_of_ne _ _ _ _ h6, getCol_setCol_of_ne _ _ _ _ h5,
    getCol_setCol_of_ne _ _ _ _ h4, getCol_setCol_of_ne _ _ _ _ h3,
    getCol_setCol_of_ne _ _ _ _ h2, getCol_setCol_of_ne _ _ _ _ h1]

/-- C7 witness: the close column of a concrete frame survives the eleven
assignments unchanged. -/
theorem c7_frame_effect_witness :
    getCol (generate_analytics_frame (α := ℕ) [("close", 7)] 1 2 3 4 5 6 8 9 10 11 12)
        "close" = some 7 := by
  rw [c7_frame_effect (α := ℕ) [("close", 7)] 1 2 3 4 5 6 8 9 10 11 12 "close"
    (by decide)]
  rfl

/-! Warm-up period lemmas: every rolling-window statistic is undefined
before its window fills, and the advice chain then falls through to HOLD. -/

theorem windowVals_none_of_lt (f : ℕ → Option ℚ) (w i : ℕ) (h : i + 1 < w) :
    windowVals f w i = none := by
  rw [windowVals, if_pos h]

theorem windowVals_none_of_head (f : ℕ → Option ℚ) (w i : ℕ) (hw : 0 < w)
    (h : f i = none) : windowVals f w i = none := by
  rw [windowVals]
  split
  · rfl
  · exact takeWindow_none_of_head f i h w hw

theorem rollingMeanOpt_none_of_lt (f : ℕ → Option ℚ) (w i : ℕ) (h : i + 1 < w) :
    rollingMeanOpt f w i = none := by
  rw [rollingMeanOpt, windowVals_none_of_lt f w i h]
  rfl

theorem rollingMeanOpt_none_of_head (f : ℕ → Option ℚ) (w i : ℕ) (hw : 0 < w)
    (h : f i = none) : rollingMeanOpt f w i = none := by
  rw [rollingMeanOpt, windowVals_none_of_head f w i hw h]
  rfl

theorem BB_MID_none_of (c : List ℚ) (i : ℕ) (h : i < 19 ∨ c.length ≤ i) :
    BB_MID c i = none := by
  rcases h with h | h
  · exact rollingMeanOpt_none_of_lt _ 20 i (by omega)
  · exact rollingMeanOpt_none_of_head _ 20 i (by omega)
      (List.get?_eq_none.mpr h)

theorem volumeSurgeB_false_of (vols : List ℚ) (i : ℕ)
    (h : i < 19 ∨ vols.length ≤ i) : volumeSurgeB vols i = false := by
  rw [volumeSurgeB]
  rcases h with h | h
  · rw [rollingMeanOpt_none_of_lt _ 20 i (by omega)]
    cases vols.get? i <;> rfl
  · rw [List.get?_eq_none.mpr h]

theorem belowLowerB_false_of_mid_none (c : List ℚ) (i : ℕ)
    (h : BB_MID c i = none) : belowLowerB c i = false := by
  rw [belowLowerB, h]
  cases c.get? i <;> rfl

theorem aboveUpperB_false_of_mid_none (c : List ℚ) (i : ℕ)
    (h : BB_MID c i = none) : aboveUpperB c i = false := by
  rw [aboveUpperB, h]
  cases c.get? i <;> rfl

theorem adviceAt_warmup (c vols : List ℚ) (i : ℕ) (hlen : vols.length = c.length)
    (h : i < 19 ∨ c.length ≤ i) : adviceAt c vols i = adviceHold := by
  have hmid : BB_MID c i = none := BB_MID_none_of c i h
  rw [adviceAt, belowLowerB_false_of_mid_none c i hmid, Bool.and_false,
    aboveUpperB_false_of_mid_none c i hmid, Bool.and_false,
    volumeSurgeB_false_of vols i (by omega)]
  rfl

theorem diffAt_some (xs : List ℚ) (j : ℕ) (h0 : j ≠ 0) (hl : j < xs.length) :
    ∃ d, diffAt xs j = some d := by
  have h1 : j - 1 < xs.length := by omega
  refine ⟨xs.get ⟨j, hl⟩ - xs.get ⟨j - 1, h1⟩, ?_⟩
  rw [diffAt, if_neg h0, List.get?_eq_get hl, List.get?_eq_get h1]

theorem avg_gain_some (c : List ℚ) (i : ℕ) (h14 : 14 ≤ i) (hl : i < c.length) :
    ∃ g, avg_gain c 14 i = some g := by
  have hwin : ∀ k, k < 14 → ((gainAt c) (i - k)).isSome := by
    intro k hk
    obtain ⟨d, hd⟩ := diffAt_some c (i - k) (by omega) (by omega)
    rw [gainAt, hd]
    rfl
  obtain ⟨l, hw⟩ := takeWindow_isSome (gainAt c) i 14 hwin
  refine ⟨l.sum / 14, ?_⟩
  rw [avg_gain, rollingMeanOpt, windowVals, if_neg (by omega), hw]
  rfl

theorem BB_MID_some (c : List ℚ) (i : ℕ) (h19 : 19 ≤ i) (hl : i < c.length) :
    ∃ m, BB_MID c i = some m := by
  have hwin : ∀ k, k < 20 → ((fun j => c.get? j) (i - k)).isSome := by
    intro k hk
    simp only []
    rw [List.get?_eq_get (show i - k < c.length by omega)]
    rfl
  obtain ⟨l, hw⟩ := takeWindow_isSome (fun j => c.get? j) i 20 hwin
  refine ⟨l.sum / 20, ?_⟩
  rw [BB_MID, rollingMeanOpt, windowVals, if_neg (by omega), hw]
  rfl

/-- C3: whenever a required rolling-window indicator (RSI's averages or
the Bollinger window statistics) is still undefined at the evaluated
(final) index because its window has not filled, the advice is HOLD.
The moving averages of the source (`ewm`) are defined from the first bar
on, so they cannot be the undefined indicator. -/
theorem c3_warmup_hold (c vols : List ℚ) (hlen : vols.length = c.length)
    (h : avg_gain c 14 (c.length - 1) = none ∨ BB_MID c (c.length - 1) = none) :
    generate_analytics c vols = adviceHold := by
  rw [generate_analytics]
  apply adviceAt_warmup c vols _ hlen
  rcases h with h | h
  · by_cases h19 : c.length - 1 < 19
    · exact Or.inl h19
    · right
      by_contra hlt
      obtain ⟨g, hg⟩ := avg_gain_some c (c.length - 1) (by omega) (by omega)
      rw [hg] at h
      exact absurd h (by simp)
  · by_cases h19 : c.length - 1 < 19
    · exact Or.inl h19
    · right
      by_contra hlt
      obtain ⟨m, hm⟩ := BB_MID_some c (c.length - 1) (by omega) (by omega)
      rw [hm] at h
      exact absurd h (by simp)

/-- C3 witness: a single-bar frame is deep inside the warm-up period and
yields HOLD. -/
theorem c3_warmup_hold_witness :
    generate_analytics [(100 : ℚ)] [(7 : ℚ)] = adviceHold :=
  c3_warmup_hold [(100 : ℚ)] [(7 : ℚ)] rfl (Or.inl (by decide))

/-- C4 counterexample: on a single-bar sequence (shorter than every
configured window) the pipeline does not fail with any error — it runs to
completion, leaves the window indicators undefined (NaN), and returns a
HOLD advice. -/
theorem c4_counterexample :
    generate_analytics [(42 : ℚ)] [(3 : ℚ)] = adviceHold ∧
      calculate_rsi [(42 : ℚ)] 14 0 = .nan ∧
      BB_MID [(42 : ℚ)] 0 = none ∧ bbVar [(42 : ℚ)] 0 = none := by
  refine ⟨by decide, by decide, by decide, by decide⟩

/-- C4 amended: for every nonempty bar sequence shorter than the largest
configured window (20), the pipeline does not raise an error: it returns
the HOLD advice, with the window-based indicators undefined at the
evaluated index. -/
theorem c4_short_series_hold (c vols : List ℚ) (hlen : vols.length = c.length)
    (h0 : 0 < c.length) (h20 : c.length < 20) :
    generate_analytics c vols = adviceHold ∧ BB_MID c (c.length - 1) = none ∧
      bbVar c (c.length - 1) = none := by
  have hi : c.length - 1 < 19 := by omega
  refine ⟨?_, BB_MID_none_of c _ (Or.inl hi), ?_⟩
  · rw [generate_analytics]
    exact adviceAt_warmup c vols _ hlen (Or.inl hi)
  · rw [bbVar, rollingVarQ, windowVals_none_of_lt _ 20 _ (by omega)]
    rfl

/-- C4 witness: the no-failure behaviour instantiated on a length-one
frame. -/
theorem c4_short_series_hold_witness :
    generate_analytics [(7 : ℚ)] [(9 : ℚ)] = adviceHold ∧
      BB_MID [(7 : ℚ)] 0 = none ∧ bbVar [(7 : ℚ)] 0 = none :=
  c4_short_series_hold [(7 : ℚ)] [(9 : ℚ)] rfl (by decide) (by decide)

/-! Bridges from the Bool-level comparisons of the advice chain to
value-level conditions. -/

theorem rsiBuyB_iff (c : List ℚ) (i : ℕ) :
    rsiBuyB c i = true ↔ ∃ r, calculate_rsi c 14 i = .val r ∧ r < 30 := by
  rcases calculate_rsi_shape c 14 i with hs | ⟨r, hs, -, -⟩ <;> rw [rsiBuyB, hs]
  · constructor
    · intro h
      exact absurd h (by simp [fltB])
    · rintro ⟨r, hr, -⟩
      exact absurd hr (by simp)
  · constructor
    · intro h
      refine ⟨r, rfl, ?_⟩
      simpa [fltB] using h
    · rintro ⟨r', hr', hlt⟩
      injection hr' with h'
      subst h'
      simpa [fltB] using hlt

theorem rsiSellB_iff (c : List ℚ) (i : ℕ) :
    rsiSellB c i = true ↔ ∃ r, calculate_rsi c 14 i = .val r ∧ 70 < r := by
  rcases calculate_rsi_shape c 14 i with hs | ⟨r, hs, -, -⟩ <;> rw [rsiSellB, hs]
  · constructor
    · intro h
      exact absurd h (by simp [fltB])
    · rintro ⟨r, hr, -⟩
      exact absurd hr (by simp)
  · constructor
    · intro h
      refine ⟨r, rfl, ?_⟩
      simpa [fltB] using h
    · rintro ⟨r', hr', hlt⟩
      injection hr' with h'
      subst h'
      simpa [fltB] using hlt

theorem macdPosB_iff (c : List ℚ) (i : ℕ) :
    macdPosB c i = true ↔ ∃ m, macd c i = some m ∧ 0 < m := by
  unfold macdPosB
  rcases h : macd c i with - | m <;> simp

theorem macdNegB_iff (c : List ℚ) (i : ℕ) :
    macdNegB c i = true ↔ ∃ m, macd c i = some m ∧ m < 0 := by
  unfold macdNegB
  rcases h : macd c i with - | m <;> simp

theorem emaUpB_iff (c : List ℚ) (i : ℕ) :
    emaUpB c i = true ↔
      ∃ a b, ewmMean c 20 i = some a ∧ ewmMean c 50 i = some b ∧ b < a := by
  unfold emaUpB
  rcases h1 : ewmMean c 20 i with - | a <;> rcases h2 : ewmMean c 50 i with - | b <;>
    simp

theorem emaDownB_iff (c : List ℚ) (i : ℕ) :
    emaDownB c i = true ↔
      ∃ a b, ewmMean c 20 i = some a ∧ ewmMean c 50 i = some b ∧ a < b := by
  unfold emaDownB
  rcases h1 : ewmMean c 20 i with - | a <;> rcases h2 : ewmMean c 50 i with - | b <;>
    simp

theorem belowLowerB_iff (c : List ℚ) (i : ℕ) :
    belowLowerB c i = true ↔
      ∃ p m v, c.get? i = some p ∧ BB_MID c i = some m ∧ bbVar c i = some v ∧
        0 < m - p ∧ 4 * v < (m - p) ^ 2 := by
  unfold belowLowerB
  rcases h1 : c.get? i with - | p <;> rcases h2 : BB_MID c i with - | m <;>
    rcases h3 : bbVar c i with - | v <;> simp

theorem aboveUpperB_iff (c : List ℚ) (i : ℕ) :
    aboveUpperB c i = true ↔
      ∃ p m v, c.get? i = some p ∧ BB_MID c i = some m ∧ bbVar c i = some v ∧
        0 < p - m ∧ 4 * v < (p - m) ^ 2 := by
  unfold aboveUpperB
  rcases h1 : c.get? i with - | p <;> rcases h2 : BB_MID c i with - | m <;>
    rcases h3 : bbVar c i with - | v <;> simp

theorem volumeSurgeB_iff (vols : List ℚ) (i : ℕ) :
    volumeSurgeB vols i = true ↔ cautionCond vols i := by
  unfold volumeSurgeB cautionCond
  rcases h1 : vols.get? i with - | x <;>
    rcases h2 : rollingMeanOpt (fun j => vols.get? j) 20 i with - | mn <;> simp

set_option maxHeartbeats 1600000 in
theorem buyB_iff (c : List ℚ) (i : ℕ) :
    (rsiBuyB c i && macdPosB c i && emaUpB c i && belowLowerB c i) = true ↔
      buyCond c i := by
  rw [Bool.and_eq_true, Bool.and_eq_true, Bool.and_eq_true, rsiBuyB_iff,
    macdPosB_iff, emaUpB_iff, belowLowerB_iff]
  unfold buyCond
  tauto

set_option maxHeartbeats 1600000 in
theorem sellB_iff (c : List ℚ) (i : ℕ) :
    (rsiSellB c i && macdNegB c i && emaDownB c i && aboveUpperB c i) = true ↔
      sellCond c i := by
  rw [Bool.and_eq_true, Bool.and_eq_true, Bool.and_eq_true, rsiSellB_iff,
    macdNegB_iff, emaDownB_iff, aboveUpperB_iff]
  unfold sellCond
  tauto

/-- C1 counterexample: on twenty alternating closes with a final volume
spike, RSI is defined (50) and both moving averages are defined, so the
claim demands HOLD; the code instead emits the CAUTION advice via the
volume-surge branch the claim omits. -/
theorem c1_counterexample :
    ¬(∀ (c vols : List ℚ) (i : ℕ) (r e20 e50 : ℚ),
        calculate_rsi c 14 i = .val r → ewmMean c 20 i = some e20 →
        ewmMean c 50 i = some e50 →
        adviceAt c vols i =
          (if r < 30 ∧ e50 < e20 then adviceStrongBuy
           else if 70 < r ∧ e20 < e50 then adviceStrongSell
           else adviceHold)) := by
  intro hclaim
  obtain ⟨e20, h20⟩ :=
    Option.isSome_iff_exists.mp (show (ewmMean cexCloses 20 19).isSome by decide)
  obtain ⟨e50, h50⟩ :=
    Option.isSome_iff_exists.mp (show (ewmMean cexCloses 50 19).isSome by decide)
  have h := hclaim cexCloses cexVolumes 19 50 e20 e50 (by decide) h20 h50
  rw [if_neg (show ¬((50 : ℚ) < 30 ∧ e50 < e20) by
        rintro ⟨h30, -⟩
        norm_num at h30),
      if_neg (show ¬((70 : ℚ) < 50 ∧ e20 < e50) by
        rintro ⟨h70, -⟩
        norm_num at h70)] at h
  have hadv : adviceAt cexCloses cexVolumes 19 = adviceCaution := by decide
  rw [hadv] at h
  exact absurd h (by decide)

/-- C1 amended: at the evaluated index the advice is STRONG BUY exactly
when RSI < 30, MACD > 0, EMA20 > EMA50 and the close is below the lower
Bollinger band all hold; STRONG SELL exactly when RSI > 70, MACD < 0,
EMA20 < EMA50 and the close is above the upper band; otherwise CAUTION
exactly when a volume surge is detected; otherwise HOLD. -/
theorem c1_advice_rule (c vols : List ℚ) (i : ℕ) :
    (adviceAt c vols i = adviceStrongBuy ↔ buyCond c i) ∧
    (adviceAt c vols i = adviceStrongSell ↔ ¬buyCond c i ∧ sellCond c i) ∧
    (adviceAt c vols i = adviceCaution ↔
      ¬buyCond c i ∧ ¬sellCond c i ∧ cautionCond vols i) ∧
    (adviceAt c vols i = adviceHold ↔
      ¬buyCond c i ∧ ¬sellCond c i ∧ ¬cautionCond vols i) := by
  have hb := buyB_iff c i
  have hs := sellB_iff c i
  have hc := volumeSurgeB_iff vols i
  rw [adviceAt]
  by_cases hb1 : (rsiBuyB c i && macdPosB c i && emaUpB c i && belowLowerB c i) = true
  · rw [if_pos hb1]
    have hbc : buyCond c i := hb.mp hb1
    exact ⟨iff_of_true rfl hbc,
      iff_of_false (by decide) (fun h => h.1 hbc),
      iff_of_false (by decide) (fun h => h.1 hbc),
      iff_of_false (by decide) (fun h => h.1 hbc)⟩
  · rw [if_neg hb1]
    have hnb : ¬buyCond c i := fun h => hb1 (hb.mpr h)
    by_cases hb2 :
        (rsiSellB c i && macdNegB c i && emaDownB c i && aboveUpperB c i) = true
    · rw [if_pos hb2]
      have hsc : sellCond c i := hs.mp hb2
      exact ⟨iff_of_false (by decide) hnb,
        iff_of_true rfl ⟨hnb, hsc⟩,
        iff_of_false (by decide) (fun h => h.2.1 hsc),
        iff_of_false (by decide) (fun h => h.2.1 hsc)⟩
    · rw [if_neg hb2]
      have hns : ¬sellCond c i := fun h => hb2 (hs.mpr h)
      by_cases hb3 : volumeSurgeB vols i = true
      · rw [if_pos hb3]
        have hcc : cautionCond vols i := hc.mp hb3
        exact ⟨iff_of_false (by decide) hnb,
          iff_of_false (by decide) (fun h => hns h.2),
          iff_of_true rfl ⟨hnb, hns, hcc⟩,
          iff_of_false (by decide) (fun h => h.2.2 hcc)⟩
      · rw [if_neg hb3]
        have hnc : ¬cautionCond vols i := fun h => hb3 (hc.mpr h)
        exact ⟨iff_of_false (by decide) hnb,
          iff_of_false (by decide) (fun h => hns h.2),
          iff_of_false (by decide) (fun h => hnc h.2.2),
          iff_of_true rfl ⟨hnb, hns, hnc⟩⟩

/-! Bollinger band lemmas. -/

theorem getD_eq_get?D (xs : List ℚ) (n : ℕ) : xs.getD n 0 = (xs.get? n).getD 0 := by
  cases h : xs[n]? <;> simp [List.getD, List.get?_eq_getElem?, h]

theorem rollingVarQ_eq_spec (xs : List ℚ) (w i : ℕ) (hw : 0 < w) :
    rollingVarQ xs w 1 i = specSampleVar xs w i := by
  by_cases hdef : w ≤ i + 1 ∧ i < xs.length
  · have hwin : ∀ k, k < w → ((fun j => xs.get? j) (i - k)).isSome := by
      intro k hk
      simp only []
      rw [List.get?_eq_get (show i - k < xs.length by omega)]
      rfl
    obtain ⟨l, hl⟩ := takeWindow_isSome (fun j => xs.get? j) i w hwin
    have hsum : l.sum = ∑ k in Finset.range w, xs.getD (i - k) 0 := by
      have h := takeWindow_map_sum (fun j => xs.get? j) i (fun x => x) w l hl
      simpa [getD_eq_get?D] using h
    have h2 := takeWindow_map_sum (fun j => xs.get? j) i
      (fun x => (x - l.sum / (w : ℚ)) ^ 2) w l hl
    rw [rollingVarQ, windowVals, if_neg (by omega), hl, specSampleVar, if_pos hdef]
    simp only [Option.map_some', Nat.cast_one, Option.some.injEq]
    rw [h2, hsum]
    congr 1
  · rw [specSampleVar, if_neg hdef, rollingVarQ]
    by_cases h1 : i + 1 < w
    · rw [windowVals_none_of_lt _ _ _ h1]
      rfl
    · have hlen : xs.length ≤ i := by omega
      rw [windowVals_none_of_head _ _ _ hw
        (show (fun j => xs.get? j) i = none from List.get?_eq_none.mpr hlen)]
      rfl

/-- C6 counterexample: on the concrete window with nineteen zero closes
and one unit close, the code's band half-width is twice the square root
of the sample variance 1/20, not twice the square root of the population
variance 19/400 that the claim prescribes; the two differ. -/
theorem c6_counterexample :
    ¬(∀ (xs : List ℚ) (i : ℕ) (u lo : ℝ) (m : ℚ) (s : ℝ),
        BB_UPPER xs i = some u → BB_LOWER xs i = some lo →
        BB_MID xs i = some m → specPopStd xs i = some s →
        u = (m : ℝ) + 2 * s ∧ lo = (m : ℝ) - 2 * s) := by
  intro hclaim
  have hmid : BB_MID bbCloses 19 = some (1 / 20) := by decide
  have hvar : bbVar bbCloses 19 = some (1 / 20) := by decide
  have hpop : rollingVarQ bbCloses 20 0 19 = some (19 / 400) := by decide
  have hstd : BB_STD bbCloses 19 = some (Real.sqrt ((1 / 20 : ℚ) : ℝ)) := by
    rw [BB_STD, hvar]
    rfl
  have hup : BB_UPPER bbCloses 19 =
      some (((1 / 20 : ℚ) : ℝ) + Real.sqrt ((1 / 20 : ℚ) : ℝ) * 2) := by
    unfold BB_UPPER
    rw [hmid, hstd]
  have hlo : BB_LOWER bbCloses 19 =
      some (((1 / 20 : ℚ) : ℝ) - Real.sqrt ((1 / 20 : ℚ) : ℝ) * 2) := by
    unfold BB_LOWER
    rw [hmid, hstd]
  have hps : specPopStd bbCloses 19 = some (Real.sqrt ((19 / 400 : ℚ) : ℝ)) := by
    rw [specPopStd, hpop]
    rfl
  obtain ⟨hu, -⟩ := hclaim bbCloses 19 _ _ _ _ hup hlo hmid hps
  have heq : Real.sqrt ((1 / 20 : ℚ) : ℝ) = Real.sqrt ((19 / 400 : ℚ) : ℝ) := by
    linarith
  rw [Real.sqrt_inj (by positivity) (by positivity)] at heq
  have : (1 / 20 : ℚ) = 19 / 400 := by exact_mod_cast heq
  norm_num at this

/-- C6 amended: the band half-width is twice the rolling sample standard
deviation (divisor n-1, the pandas `rolling.std()` default), so
`BB_UPPER = mean + 2*sqrt(sampleVar)` and
`BB_LOWER = mean - 2*sqrt(sampleVar)` wherever the window statistics are
defined, with the sample variance stated independently as a
`Finset.range` sum of squared deviations from the window mean. -/
theorem c6_bands_use_sample_std (xs : List ℚ) (i : ℕ) (m v : ℚ)
    (hm : BB_MID xs i = some m) (hv : specSampleVar xs 20 i = some v) :
    BB_UPPER xs i = some ((m : ℝ) + Real.sqrt (v : ℝ) * 2) ∧
      BB_LOWER xs i = some ((m : ℝ) - Real.sqrt (v : ℝ) * 2) := by
  have hbv : bbVar xs i = some v := by
    rw [bbVar, rollingVarQ_eq_spec xs 20 i (by norm_num), hv]
  have hstd : BB_STD xs i = some (Real.sqrt (v : ℝ)) := by
    rw [BB_STD, hbv]
    rfl
  constructor
  · unfold BB_UPPER
    rw [hm, hstd]
  · unfold BB_LOWER
    rw [hm, hstd]

/-- C6 witness: the amended band formula instantiated on the concrete
window with sample variance 1/20. -/
theorem c6_bands_use_sample_std_witness :
    BB_UPPER bbCloses 19 =
        some (((1 / 20 : ℚ) : ℝ) + Real.sqrt ((1 / 20 : ℚ) : ℝ) * 2) ∧
      BB_LOWER bbCloses 19 =
        some (((1 / 20 : ℚ) : ℝ) - Real.sqrt ((1 / 20 : ℚ) : ℝ) * 2) :=
  c6_bands_use_sample_std bbCloses 19 (1 / 20) (1 / 20) (by decide)
    (by rw [← rollingVarQ_eq_spec bbCloses 20 19 (by norm_num)]; decide)

/-! Position simulator lemmas (spec-modelled component). -/

theorem runSim_phases (balance : ℚ) (close : ℕ → ℚ) (sig : ℕ → Signal)
    (n k m : ℕ) (hkm : k < m) (hmn : m < n)
    (hbuy : sig k = .buy) (hsell : sig m = .sell)
    (hhold : ∀ i, i < n → i ≠ k → i ≠ m → sig i = .hold) :
    ∀ j, j ≤ n →
      runSim balance close sig j =
        (if j ≤ k then ⟨balance, 0, .flat, 0, 0, []⟩
         else if j ≤ m then ⟨0, balance / close k, .long, k, close k, []⟩
         else ⟨balance / close k * close m, 0, .flat, k, close k,
               [⟨k, close k, m, close m⟩]⟩) := by
  intro j
  induction j with
  | zero =>
    intro _
    rw [if_pos (Nat.zero_le k)]
    rfl
  | succ j ih =>
    intro hjn
    have hrec := ih (by omega)
    show stepSim close sig (runSim balance close sig j) j = _
    rw [hrec]
    by_cases h1 : j + 1 ≤ k
    · rw [if_pos (show j ≤ k by omega), if_pos h1]
      have hsj : sig j = .hold := hhold j (by omega) (by omega) (by omega)
      rw [stepSim, hsj]
    · by_cases h2 : j + 1 ≤ m
      · rw [if_neg h1, if_pos h2]
        by_cases hjk : j = k
        · subst hjk
          rw [if_pos (le_refl j), stepSim, hbuy]
        · rw [if_neg (show ¬j ≤ k by omega),
            if_pos (show j ≤ m by omega)]
          have hsj : sig j = .hold := hhold j (by omega) hjk (by omega)
          rw [stepSim, hsj]
      · rw [if_neg h1, if_neg h2]
        by_cases hjm : j = m
        · subst hjm
          rw [if_neg (show ¬j ≤ k by omega), if_pos (le_refl j), stepSim, hsell]
          rfl
        · rw [if_neg (show ¬j ≤ k by omega), if_neg (show ¬j ≤ m by omega)]
          have hsj : sig j = .hold := hhold j (by omega) (by omega) hjm
          rw [stepSim, hsj]

/-- C9: modelled from the spec (the source has no PositionSimulator).  A
signal sequence with exactly one Buy at k and one Sell at m > k, Hold
everywhere else, produces exactly one ClosedTrade with entryIndex k,
entryPrice close k, exitIndex m, exitPrice close m, ends Flat, and the
final equity is balance * close m / close k. -/
theorem c9_round_trip (balance : ℚ) (close : ℕ → ℚ) (sig : ℕ → Signal)
    (n k m : ℕ) (hkm : k < m) (hmn : m < n)
    (hbuy : sig k = .buy) (hsell : sig m = .sell)
    (hhold : ∀ i, i < n → i ≠ k → i ≠ m → sig i = .hold) :
    (runSim balance close sig n).trades = [⟨k, close k, m, close m⟩] ∧
      (runSim balance close sig n).position = .flat ∧
      finalEquity close n (runSim balance close sig n) =
        balance * close m / close k := by
  have h := runSim_phases balance close sig n k m hkm hmn hbuy hsell hhold n le_rfl
  rw [if_neg (show ¬n ≤ k by omega), if_neg (show ¬n ≤ m by omega)] at h
  rw [h]
  refine ⟨rfl, rfl, ?_⟩
  show balance / close k * close m = balance * close m / close k
  ring

/-- C9 witness: balance 10000, Buy at price 100 on bar 0, Sell at price
120 on bar 1 — one closed trade and final equity 12000. -/
theorem c9_round_trip_witness :
    (runSim 10000 wClose wSig 2).trades = [⟨0, wClose 0, 1, wClose 1⟩] ∧
      (runSim 10000 wClose wSig 2).position = .flat ∧
      finalEquity wClose 2 (runSim 10000 wClose wSig 2) =
        10000 * wClose 1 / wClose 0 :=
  c9_round_trip 10000 wClose wSig 2 0 1 (by norm_num) (by norm_num) rfl rfl
    (by decide)

end Trader
